import Mathlib

/-!
# Verification of the geozero-core WKB/EWKB/GPKG binary geometry reader

Shallow embedding of `src/geozero-core/src/wkb_reader.rs`.

Modelling choices:
* A byte stream (`std::io::Read`) is a `List Nat` of bytes; reading consumes a
  prefix.  Reads that run off the end of the stream fail with `GErr.IoError`,
  matching the scroll crate's I/O error behaviour.
* 64-bit IEEE-754 doubles are carried as their raw 64-bit words (`Nat`): the
  Rust code never inspects a coordinate value, it only moves the 8 bytes from
  the stream to the processor, so the bit pattern is a faithful model.
* `i32` values (SRIDs) are decoded to `Int` by two's complement.
* The `GeomProcessor` trait is modelled as a dimension query plus a single
  callback over an event sum type (`GeomEvent`), one constructor per trait
  method used by the reader; a callback may fail with any `GErr`.
* The geometry walker `process_wkb_geom_n` recurses without bound in Rust
  (GeometryCollection nesting); the embedding adds a fuel parameter, and
  exhausted fuel yields the artificial error `GErr.RecursionLimit` which no
  claim depends on.
* The walker also returns the exact sequence of processor callbacks it
  attempted, each entry paired with the error the callback raised (if any),
  so that call-ordering properties can be stated.
-/

namespace GeozeroWkb

/-- Error type: `GeometryFormat` and `IoError` mirror the two
`GeozeroError` variants raised by `wkb_reader.rs` itself; `Custom` stands for
any other error a processor callback may raise; `RecursionLimit` is the
embedding-only fuel-exhaustion marker (the Rust code recurses unboundedly). -/
inductive GErr where
  | GeometryFormat
  | IoError
  | RecursionLimit
  | Custom (code : Nat)
deriving DecidableEq, Repr

/-- scroll endianness selector. -/
inductive Endian where
  | be
  | le
deriving DecidableEq, Repr

/-- `raw.ioread::<u8>()`: one byte, or an I/O error on an exhausted stream. -/
def ioreadU8 (s : List Nat) : Except GErr (Nat × List Nat) :=
  match s with
  | [] => .error .IoError
  | b :: r => .ok (b, r)

/-- Read exactly `n` bytes from the stream. -/
def readBytes : Nat → List Nat → Except GErr (List Nat × List Nat)
  | 0, s => .ok ([], s)
  | _ + 1, [] => .error .IoError
  | n + 1, b :: r =>
    match readBytes n r with
    | .error e => .error e
    | .ok (bs, r') => .ok (b :: bs, r')

/-- Little-endian value of a byte list (first byte least significant). -/
def leVal : List Nat → Nat
  | [] => 0
  | b :: bs => b + 256 * leVal bs

/-- Byte-order-aware value of a byte list. -/
def endianVal : Endian → List Nat → Nat
  | .le, bs => leVal bs
  | .be, bs => leVal bs.reverse

/-- `raw.ioread_with::<u32>(endian)`. -/
def ioreadU32 (e : Endian) (s : List Nat) : Except GErr (Nat × List Nat) :=
  match readBytes 4 s with
  | .error e' => .error e'
  | .ok (bs, r) => .ok (endianVal e bs, r)

/-- Two's-complement reading of a 32-bit word. -/
def toI32 (v : Nat) : Int :=
  if v < 2 ^ 31 then (v : Int) else (v : Int) - 2 ^ 32

/-- `raw.ioread_with::<i32>(endian)`. -/
def ioreadI32 (e : Endian) (s : List Nat) : Except GErr (Int × List Nat) :=
  match readBytes 4 s with
  | .error e' => .error e'
  | .ok (bs, r) => .ok (toI32 (endianVal e bs), r)

/-- `raw.ioread_with::<f64>(endian)`, returning the raw 64-bit word. -/
def ioreadF64 (e : Endian) (s : List Nat) : Except GErr (Nat × List Nat) :=
  match readBytes 8 s with
  | .error e' => .error e'
  | .ok (bs, r) => .ok (endianVal e bs, r)

/-- WKB Types according to OGC 06-103r4, with the same variants (including the
source's spelling `Trianglez`, `TinZM`) and the `Unknown` extension. -/
inductive WKBGeometryType where
  | Point
  | LineString
  | Polygon
  | Triangle
  | MultiPoint
  | MultiLineString
  | MultiPolygon
  | GeometryCollection
  | PolyhedralSurface
  | TIN
  | PointZ
  | LineStringZ
  | PolygonZ
  | Trianglez
  | MultiPointZ
  | MultiLineStringZ
  | MultiPolygonZ
  | GeometryCollectionZ
  | PolyhedralSurfaceZ
  | TINZ
  | PointM
  | LineStringM
  | PolygonM
  | TriangleM
  | MultiPointM
  | MultiLineStringM
  | MultiPolygonM
  | GeometryCollectionM
  | PolyhedralSurfaceM
  | TINM
  | PointZM
  | LineStringZM
  | PolygonZM
  | TriangleZM
  | MultiPointZM
  | MultiLineStringZM
  | MultiPolygonZM
  | GeometryCollectionZM
  | PolyhedralSurfaceZM
  | TinZM
  | Unknown
deriving DecidableEq, Repr

/-- `WKBGeometryType::from_u32`. -/
def WKBGeometryType.from_u32 (value : Nat) : WKBGeometryType :=
  match value with
  | 1 => .Point
  | 2 => .LineString
  | 3 => .Polygon
  | 17 => .Triangle
  | 4 => .MultiPoint
  | 5 => .MultiLineString
  | 6 => .MultiPolygon
  | 7 => .GeometryCollection
  | 15 => .PolyhedralSurface
  | 16 => .TIN
  | 1001 => .PointZ
  | 1002 => .LineStringZ
  | 1003 => .PolygonZ
  | 1017 => .Trianglez
  | 1004 => .MultiPointZ
  | 1005 => .MultiLineStringZ
  | 1006 => .MultiPolygonZ
  | 1007 => .GeometryCollectionZ
  | 1015 => .PolyhedralSurfaceZ
  | 1016 => .TINZ
  | 2001 => .PointM
  | 2002 => .LineStringM
  | 2003 => .PolygonM
  | 2017 => .TriangleM
  | 2004 => .MultiPointM
  | 2005 => .MultiLineStringM
  | 2006 => .MultiPolygonM
  | 2007 => .GeometryCollectionM
  | 2015 => .PolyhedralSurfaceM
  | 2016 => .TINM
  | 3001 => .PointZM
  | 3002 => .LineStringZM
  | 3003 => .PolygonZM
  | 3017 => .TriangleZM
  | 3004 => .MultiPointZM
  | 3005 => .MultiLineStringZM
  | 3006 => .MultiPolygonZM
  | 3007 => .GeometryCollectionZM
  | 3015 => .PolyhedralSurfaceZM
  | 3016 => .TinZM
  | _ => .Unknown

/-- The codes `from_u32` recognises (everything else maps to `Unknown`). -/
def wkbKnownCodes : List Nat :=
  [1, 2, 3, 4, 5, 6, 7, 15, 16, 17,
   1001, 1002, 1003, 1004, 1005, 1006, 1007, 1015, 1016, 1017,
   2001, 2002, 2003, 2004, 2005, 2006, 2007, 2015, 2016, 2017,
   3001, 3002, 3003, 3004, 3005, 3006, 3007, 3015, 3016, 3017]

/-- `WkbInfo`: the normalized header produced by the three decoders.
`envelope` holds raw f64 words. -/
structure WkbInfo where
  endian : Endian
  base_type : WKBGeometryType
  has_z : Bool
  has_m : Bool
  srid : Option Int
  envelope : List Nat
deriving DecidableEq, Repr

/-- `byte_order == WKBByteOrder::XDR as u8` (0 = big endian, else little). -/
def byteOrderEndian (b : Nat) : Endian :=
  if b = 0 then .be else .le

/-- `read_wkb_header`: OGC WKB header. -/
def read_wkb_header (s : List Nat) : Except GErr (WkbInfo × List Nat) :=
  match ioreadU8 s with
  | .error e => .error e
  | .ok (byte_order, s1) =>
    let endian := byteOrderEndian byte_order
    match ioreadU32 endian s1 with
    | .error e => .error e
    | .ok (type_id, s2) =>
      .ok (⟨endian, WKBGeometryType.from_u32 (type_id % 1000),
            type_id / 1000 == 1 || type_id / 1000 == 3,
            type_id / 1000 == 2 || type_id / 1000 == 3,
            none, []⟩, s2)

/-- `read_ewkb_header`: EWKB header (PostGIS ZMSgeoms layout). -/
def read_ewkb_header (s : List Nat) : Except GErr (WkbInfo × List Nat) :=
  match ioreadU8 s with
  | .error e => .error e
  | .ok (byte_order, s1) =>
    let endian := byteOrderEndian byte_order
    match ioreadU32 endian s1 with
    | .error e => .error e
    | .ok (type_id, s2) =>
      let base_type := WKBGeometryType.from_u32 (type_id &&& 0xFF)
      let has_z := type_id &&& 0x80000000 == 0x80000000
      let has_m := type_id &&& 0x40000000 == 0x40000000
      if type_id &&& 0x20000000 == 0x20000000 then
        match ioreadI32 endian s2 with
        | .error e => .error e
        | .ok (srid, s3) => .ok (⟨endian, base_type, has_z, has_m, some srid, []⟩, s3)
      else
        .ok (⟨endian, base_type, has_z, has_m, none, []⟩, s2)

/-- The envelope-length table from `read_gpkg_header`'s `match` on the
selector bits `(flags & 0xE) >> 1`; unknown selectors are the
format-error early return. -/
def gpkgEnvLen (sel : Nat) : Except GErr Nat :=
  match sel with
  | 0 => .ok 0
  | 1 => .ok 4
  | 2 => .ok 6
  | 3 => .ok 6
  | 4 => .ok 8
  | _ => .error .GeometryFormat

/-- The `(0..env_len).map(|_| ioread f64).collect()` envelope read. -/
def read_envelope (e : Endian) : Nat → List Nat → Except GErr (List Nat × List Nat)
  | 0, s => .ok ([], s)
  | n + 1, s =>
    match ioreadF64 e s with
    | .error e' => .error e'
    | .ok (v, s1) =>
      match read_envelope e n s1 with
      | .error e' => .error e'
      | .ok (vs, s2) => .ok (v :: vs, s2)

/-- `read_gpkg_header`: GPKG geometry header (magic "GP" = bytes 71, 80),
version byte, flags byte, SRID, envelope, then the embedded OGC header.
Note the merged header keeps the GPKG-level `endian` (flags bit 0), not the
embedded OGC header's endian. -/
def read_gpkg_header (s : List Nat) : Except GErr (WkbInfo × List Nat) :=
  match ioreadU8 s with
  | .error e => .error e
  | .ok (m0, s1) =>
  match ioreadU8 s1 with
  | .error e => .error e
  | .ok (m1, s2) =>
  if m0 == 71 && m1 == 80 then
    match ioreadU8 s2 with
    | .error e => .error e
    | .ok (_version, s3) =>
    match ioreadU8 s3 with
    | .error e => .error e
    | .ok (flags, s4) =>
      let _extended := (flags &&& 0x20) >>> 5 == 1
      let _empty := (flags &&& 0x10) >>> 4 == 1
      match gpkgEnvLen ((flags &&& 0xE) >>> 1) with
      | .error e => .error e
      | .ok env_len =>
        let endian := if flags &&& 1 = 0 then Endian.be else Endian.le
        match ioreadI32 endian s4 with
        | .error e => .error e
        | .ok (srid, s5) =>
        match read_envelope endian env_len s5 with
        | .error e => .error e
        | .ok (envelope, s6) =>
        match read_wkb_header s6 with
        | .error e => .error e
        | .ok (ogc_info, s7) =>
          .ok (⟨endian, ogc_info.base_type, ogc_info.has_z, ogc_info.has_m,
                some srid, envelope⟩, s7)
  else .error .GeometryFormat

end GeozeroWkb

namespace GeozeroWkb

/-- The processor callbacks the walker performs, one constructor per
`GeomProcessor` trait method invoked by `wkb_reader.rs`, carrying exactly the
method's arguments.  Coordinates are raw f64 words; `coordinate`'s `t`/`tm`
slots are the two always-`None` extra ordinates of the Rust call. -/
inductive GeomEvent where
  | point_begin (idx : Nat)
  | point_end (idx : Nat)
  | multipoint_begin (n : Nat) (idx : Nat)
  | multipoint_end (idx : Nat)
  | linestring_begin (tagged : Bool) (n : Nat) (idx : Nat)
  | linestring_end (tagged : Bool) (idx : Nat)
  | multilinestring_begin (n : Nat) (idx : Nat)
  | multilinestring_end (idx : Nat)
  | polygon_begin (tagged : Bool) (n : Nat) (idx : Nat)
  | polygon_end (tagged : Bool) (idx : Nat)
  | multipolygon_begin (n : Nat) (idx : Nat)
  | multipolygon_end (idx : Nat)
  | geometrycollection_begin (n : Nat) (idx : Nat)
  | geometrycollection_end (idx : Nat)
  | xy (x : Nat) (y : Nat) (idx : Nat)
  | coordinate (x : Nat) (y : Nat) (z : Option Nat) (m : Option Nat)
      (t : Option Nat) (tm : Option Nat) (idx : Nat)
deriving DecidableEq, Repr

/-- `processor.dimensions()`: which ordinates the consumer tracks. -/
structure Dimensions where
  z : Bool
  m : Bool
deriving DecidableEq, Repr

/-- A `GeomProcessor` implementation: a dimension query plus a stateful,
fallible handler for each callback event. -/
structure GeomProcessor (σ : Type) where
  dims : Dimensions
  handle : GeomEvent → σ → Except GErr σ

/-- `multi_dim`: `processor.dimensions().z || processor.dimensions().m`. -/
def multi_dim {σ : Type} (p : GeomProcessor σ) : Bool :=
  p.dims.z || p.dims.m

/-- One attempted processor call together with the error it raised, if any. -/
abbrev TraceEntry := GeomEvent × Option GErr

/-- Result of a walker step: the outcome (remaining stream and processor
state, or the propagated error) plus the exact list of processor calls made. -/
abbrev WRes (σ : Type) := Except GErr (List Nat × σ) × List TraceEntry

/-- Sequencing of walker steps (the `?` operator): on error, stop. -/
def wbind {σ : Type} (r : WRes σ) (f : List Nat → σ → WRes σ) : WRes σ :=
  match r with
  | (.error e, t) => (.error e, t)
  | (.ok (s, st), t) =>
    let r2 := f s st
    (r2.1, t ++ r2.2)

/-- Sequencing of a raw stream read (no processor call) into the walk. -/
def rread {σ α : Type} (r : Except GErr (α × List Nat))
    (f : α → List Nat → WRes σ) : WRes σ :=
  match r with
  | .error e => (.error e, [])
  | .ok (a, s) => f a s

/-- Perform one processor callback, recording it in the trace. -/
def pcall {σ : Type} (p : GeomProcessor σ) (ev : GeomEvent) (s : List Nat)
    (st : σ) : WRes σ :=
  match p.handle ev st with
  | .ok st2 => (.ok (s, st2), [(ev, none)])
  | .error e => (.error e, [(ev, some e)])

/-- `if info.has_z { Some(ioread f64) } else { None }` (same for has_m). -/
def readOptF64 (cond : Bool) (e : Endian) (s : List Nat) :
    Except GErr (Option Nat × List Nat) :=
  if cond then
    match ioreadF64 e s with
    | .error e' => .error e'
    | .ok (v, s1) => .ok (some v, s1)
  else .ok (none, s)

/-- `process_coord`: read x, y, optional z, optional m under the header's
byte order, then emit either the full `coordinate` or the simplified `xy`. -/
def process_coord {σ : Type} (p : GeomProcessor σ) (info : WkbInfo)
    (multi : Bool) (idx : Nat) (s : List Nat) (st : σ) : WRes σ :=
  rread (ioreadF64 info.endian s) fun x s =>
  rread (ioreadF64 info.endian s) fun y s =>
  rread (readOptF64 info.has_z info.endian s) fun z s =>
  rread (readOptF64 info.has_m info.endian s) fun m s =>
  if multi then pcall p (.coordinate x y z m none none idx) s st
  else pcall p (.xy x y idx) s st

/-- The `for i in 0..length { process_coord(...) }` loop of
`process_linestring`: `k` coordinates remain, `i` is the next index. -/
def coords_items {σ : Type} (p : GeomProcessor σ) (info : WkbInfo)
    (multi : Bool) : Nat → Nat → List Nat → σ → WRes σ
  | 0, _, s, st => (.ok (s, st), [])
  | k + 1, i, s, st =>
    wbind (process_coord p info multi i s st)
      (fun s st => coords_items p info multi k (i + 1) s st)

/-- `process_linestring`. -/
def process_linestring {σ : Type} (p : GeomProcessor σ) (info : WkbInfo)
    (tagged : Bool) (idx : Nat) (s : List Nat) (st : σ) : WRes σ :=
  rread (ioreadU32 info.endian s) fun length s =>
  wbind (pcall p (.linestring_begin tagged length idx) s st) fun s st =>
  wbind (coords_items p info (multi_dim p) length 0 s st) fun s st =>
  pcall p (.linestring_end tagged idx) s st

/-- The ring loop of `process_polygon`. -/
def rings_items {σ : Type} (p : GeomProcessor σ) (info : WkbInfo) :
    Nat → Nat → List Nat → σ → WRes σ
  | 0, _, s, st => (.ok (s, st), [])
  | k + 1, i, s, st =>
    wbind (process_linestring p info false i s st)
      (fun s st => rings_items p info k (i + 1) s st)

/-- `process_polygon`. -/
def process_polygon {σ : Type} (p : GeomProcessor σ) (info : WkbInfo)
    (tagged : Bool) (idx : Nat) (s : List Nat) (st : σ) : WRes σ :=
  rread (ioreadU32 info.endian s) fun ring_count s =>
  wbind (pcall p (.polygon_begin tagged ring_count idx) s st) fun s st =>
  wbind (rings_items p info ring_count 0 s st) fun s st =>
  pcall p (.polygon_end tagged idx) s st

/-- The per-format child header decoder threaded through the walker. -/
abbrev HeaderReader := List Nat → Except GErr (WkbInfo × List Nat)

/-- MultiPoint element loop: re-read a child header, then one coordinate. -/
def mpoint_items {σ : Type} (p : GeomProcessor σ) (rh : HeaderReader)
    (multi : Bool) : Nat → Nat → List Nat → σ → WRes σ
  | 0, _, s, st => (.ok (s, st), [])
  | k + 1, i, s, st =>
    rread (rh s) fun cinfo s =>
    wbind (process_coord p cinfo multi i s st)
      (fun s st => mpoint_items p rh multi k (i + 1) s st)

/-- MultiLineString element loop: child header, then untagged linestring. -/
def mline_items {σ : Type} (p : GeomProcessor σ) (rh : HeaderReader) :
    Nat → Nat → List Nat → σ → WRes σ
  | 0, _, s, st => (.ok (s, st), [])
  | k + 1, i, s, st =>
    rread (rh s) fun cinfo s =>
    wbind (process_linestring p cinfo false i s st)
      (fun s st => mline_items p rh k (i + 1) s st)

/-- MultiPolygon element loop: child header, then untagged polygon. -/
def mpoly_items {σ : Type} (p : GeomProcessor σ) (rh : HeaderReader) :
    Nat → Nat → List Nat → σ → WRes σ
  | 0, _, s, st => (.ok (s, st), [])
  | k + 1, i, s, st =>
    rread (rh s) fun cinfo s =>
    wbind (process_polygon p cinfo false i s st)
      (fun s st => mpoly_items p rh k (i + 1) s st)

/-- GeometryCollection element loop: child header, then full dispatch via
`recurse`, which `process_wkb_geom_n` instantiates with itself at the next
smaller fuel. -/
def gc_items {σ : Type} (p : GeomProcessor σ) (rh : HeaderReader)
    (recurse : WkbInfo → Nat → List Nat → σ → WRes σ) :
    Nat → Nat → List Nat → σ → WRes σ
  | 0, _, s, st => (.ok (s, st), [])
  | k + 1, i, s, st =>
    rread (rh s) fun cinfo s =>
    wbind (recurse cinfo i s st)
      (fun s st => gc_items p rh recurse k (i + 1) s st)

/-- `process_wkb_geom_n`: dispatch on the decoded header's base type and
drive the processor.  `fuel` bounds the GeometryCollection recursion depth
(unbounded in the Rust source). -/
def process_wkb_geom_n {σ : Type} (p : GeomProcessor σ) (rh : HeaderReader) :
    Nat → WkbInfo → Nat → List Nat → σ → WRes σ
  | 0, _, _, _, _ => (.error .RecursionLimit, [])
  | fuel + 1, info, idx, s, st =>
    match info.base_type with
    | .Point =>
      wbind (pcall p (.point_begin idx) s st) fun s st =>
      wbind (process_coord p info (multi_dim p) 0 s st) fun s st =>
      pcall p (.point_end idx) s st
    | .MultiPoint =>
      rread (ioreadU32 info.endian s) fun n_pts s =>
      wbind (pcall p (.multipoint_begin n_pts idx) s st) fun s st =>
      wbind (mpoint_items p rh (multi_dim p) n_pts 0 s st) fun s st =>
      pcall p (.multipoint_end idx) s st
    | .LineString => process_linestring p info true idx s st
    | .MultiLineString =>
      rread (ioreadU32 info.endian s) fun n_lines s =>
      wbind (pcall p (.multilinestring_begin n_lines idx) s st) fun s st =>
      wbind (mline_items p rh n_lines 0 s st) fun s st =>
      pcall p (.multilinestring_end idx) s st
    | .Polygon => process_polygon p info true idx s st
    | .MultiPolygon =>
      rread (ioreadU32 info.endian s) fun n_polys s =>
      wbind (pcall p (.multipolygon_begin n_polys idx) s st) fun s st =>
      wbind (mpoly_items p rh n_polys 0 s st) fun s st =>
      pcall p (.multipolygon_end idx) s st
    | .GeometryCollection =>
      rread (ioreadU32 info.endian s) fun n_geoms s =>
      wbind (pcall p (.geometrycollection_begin n_geoms idx) s st) fun s st =>
      wbind (gc_items p rh
        (fun cinfo i s st => process_wkb_geom_n p rh fuel cinfo i s st)
        n_geoms 0 s st) fun s st =>
      pcall p (.geometrycollection_end idx) s st
    | _ => (.error .GeometryFormat, [])

/-- `process_ewkb_geom` entry point. -/
def process_ewkb_geom {σ : Type} (p : GeomProcessor σ) (fuel : Nat)
    (s : List Nat) (st : σ) : WRes σ :=
  match read_ewkb_header s with
  | .error e => (.error e, [])
  | .ok (info, s1) => process_wkb_geom_n p read_ewkb_header fuel info 0 s1 st

/-- `process_gpkg_geom` entry point: GPKG header, then the walk with the
plain OGC header reader for children. -/
def process_gpkg_geom {σ : Type} (p : GeomProcessor σ) (fuel : Nat)
    (s : List Nat) (st : σ) : WRes σ :=
  match read_gpkg_header s with
  | .error e => (.error e, [])
  | .ok (info, s1) => process_wkb_geom_n p read_wkb_header fuel info 0 s1 st

end GeozeroWkb

namespace GeozeroWkb

/-- A processor that tracks only x/y and records every callback. -/
def recP2d : GeomProcessor (List GeomEvent) :=
  ⟨⟨false, false⟩, fun ev st => .ok (st ++ [ev])⟩

/-- A processor that tracks Z and M and records every callback. -/
def recPzm : GeomProcessor (List GeomEvent) :=
  ⟨⟨true, true⟩, fun ev st => .ok (st ++ [ev])⟩

/-- The spec's EWKB scenario
`01010000C0000000000000244000000000000034C00000000000005940000000000000F03F`
(`POINT(10 -20 100 1)` with Z and M, no SRID). -/
def ewkbPointZM : List Nat :=
  [0x01, 0x01, 0x00, 0x00, 0xC0,
   0x00, 0x00, 0x00, 0x00, 0x00, 0x00, 0x24, 0x40,
   0x00, 0x00, 0x00, 0x00, 0x00, 0x00, 0x34, 0xC0,
   0x00, 0x00, 0x00, 0x00, 0x00, 0x00, 0x59, 0x40,
   0x00, 0x00, 0x00, 0x00, 0x00, 0x00, 0xF0, 0x3F]

/-- The body (coordinate bytes) of `ewkbPointZM`. -/
def ewkbPointZMBody : List Nat := ewkbPointZM.drop 5

/-- C8: decoding `01010000C0…F03F` yields a Point header with
`has_z = true`, `has_m = true`, `srid = none`, and the walk emits the single
coordinate at index 0 whose raw f64 words are the IEEE-754 encodings of
x = 10 (`0x4024000000000000`), y = -20 (`0xC034000000000000`),
z = 100 (`0x4059000000000000`), m = 1 (`0x3FF0000000000000`); with a
processor tracking neither Z nor M, the emission is the simplified
`xy` form carrying only the x and y words. -/
theorem ewkb_point_zm_scenario :
    read_ewkb_header ewkbPointZM =
      .ok (⟨.le, .Point, true, true, none, []⟩, ewkbPointZMBody)
    ∧ process_ewkb_geom recPzm 1 ewkbPointZM [] =
      (.ok ([], [.point_begin 0,
                 .coordinate 0x4024000000000000 0xC034000000000000
                   (some 0x4059000000000000) (some 0x3FF0000000000000)
                   none none 0,
                 .point_end 0]),
       [(.point_begin 0, none),
        (.coordinate 0x4024000000000000 0xC034000000000000
          (some 0x4059000000000000) (some 0x3FF0000000000000) none none 0,
         none),
        (.point_end 0, none)])
    ∧ process_ewkb_geom recP2d 1 ewkbPointZM [] =
      (.ok ([], [.point_begin 0,
                 .xy 0x4024000000000000 0xC034000000000000 0,
                 .point_end 0]),
       [(.point_begin 0, none),
        (.xy 0x4024000000000000 0xC034000000000000 0, none),
        (.point_end 0, none)]) := by
  exact ⟨rfl, rfl, rfl⟩

/-- A GPKG stream whose flags byte (bit 0 = 1) declares little-endian but
whose embedded OGC body declares big-endian (leading byte 0): magic "GP",
version 0, flags 0x01 (LE, no envelope), SRID 4326 (LE), then a big-endian
OGC Point header followed by the big-endian doubles 1.0 and 2.0. -/
def gpkgMixed : List Nat :=
  [0x47, 0x50, 0x00, 0x01, 0xE6, 0x10, 0x00, 0x00,
   0x00, 0x00, 0x00, 0x00, 0x01,
   0x3F, 0xF0, 0x00, 0x00, 0x00, 0x00, 0x00, 0x00,
   0x40, 0x00, 0x00, 0x00, 0x00, 0x00, 0x00, 0x00]

/-- The coordinate bytes of `gpkgMixed` (big-endian 1.0 then 2.0). -/
def gpkgMixedBody : List Nat := gpkgMixed.drop 13

/-- C1: on `gpkgMixed` the embedded OGC header itself declares big-endian
(first conjunct), yet the merged GPKG header keeps the GPKG-level
little-endian flag (second conjunct), and the walk therefore reads the
coordinate doubles little-endian, emitting x-word `0xF03F` — not the
big-endian reading `0x3FF0000000000000` (= 1.0) that the inner byte-order
flag calls for (remaining conjuncts).  This exhibits the code decoding the
outermost geometry body under the GPKG-level byte order, contradicting the
claim (and the GeoPackage format the source cites, in which the embedded
WKB body is self-describing). -/
theorem gpkg_mixed_endian_body_eval :
    read_wkb_header (gpkgMixed.drop 8) =
      .ok (⟨.be, .Point, false, false, none, []⟩, gpkgMixedBody)
    ∧ read_gpkg_header gpkgMixed =
      .ok (⟨.le, .Point, false, false, some 4326, []⟩, gpkgMixedBody)
    ∧ process_gpkg_geom recP2d 1 gpkgMixed [] =
      (.ok ([], [.point_begin 0, .xy 0xF03F 0x40 0, .point_end 0]),
       [(.point_begin 0, none), (.xy 0xF03F 0x40 0, none),
        (.point_end 0, none)])
    ∧ ioreadF64 .be gpkgMixedBody =
      .ok (0x3FF0000000000000, [0x40, 0x00, 0x00, 0x00, 0x00, 0x00, 0x00, 0x00])
    ∧ (0xF03F : Nat) ≠ 0x3FF0000000000000 := by
  exact ⟨rfl, rfl, rfl, rfl, by decide⟩

end GeozeroWkb

namespace GeozeroWkb

/-- C3: whenever the OGC/WKB header decoder reads byte-order byte `bo` and a
32-bit type code `code` under the corresponding endianness, the resulting
header's base kind is `from_u32 (code % 1000)` and its dimension flags are
computed from `code / 1000`, with indicator values 0, 1, 2, 3 giving
`(has_z, has_m)` = (false,false), (true,false), (false,true), (true,true). -/
theorem wkb_header_type_code (bo : Nat) (s rest : List Nat) (code : Nat)
    (h : ioreadU32 (byteOrderEndian bo) s = .ok (code, rest)) :
    read_wkb_header (bo :: s) =
      .ok (⟨byteOrderEndian bo, WKBGeometryType.from_u32 (code % 1000),
            code / 1000 == 1 || code / 1000 == 3,
            code / 1000 == 2 || code / 1000 == 3, none, []⟩, rest)
    ∧ (code / 1000 = 0 →
        (code / 1000 == 1 || code / 1000 == 3) = false
        ∧ (code / 1000 == 2 || code / 1000 == 3) = false)
    ∧ (code / 1000 = 1 →
        (code / 1000 == 1 || code / 1000 == 3) = true
        ∧ (code / 1000 == 2 || code / 1000 == 3) = false)
    ∧ (code / 1000 = 2 →
        (code / 1000 == 1 || code / 1000 == 3) = false
        ∧ (code / 1000 == 2 || code / 1000 == 3) = true)
    ∧ (code / 1000 = 3 →
        (code / 1000 == 1 || code / 1000 == 3) = true
        ∧ (code / 1000 == 2 || code / 1000 == 3) = true) := by
  refine ⟨?_, ?_, ?_, ?_, ?_⟩
  · simp only [read_wkb_header, ioreadU8, h]
  · intro h0; simp [h0]
  · intro h1; simp [h1]
  · intro h2; simp [h2]
  · intro h3; simp [h3]

/-- Witness for `wkb_header_type_code`: the little-endian type code 3001
(PointZM-coded) read from the bytes `B9 0B 00 00`. -/
theorem wkb_header_type_code_witness :
    ioreadU32 (byteOrderEndian 1) [0xB9, 0x0B, 0x00, 0x00] = .ok (3001, [])
    ∧ (read_wkb_header (1 :: [0xB9, 0x0B, 0x00, 0x00]) =
        .ok (⟨byteOrderEndian 1, WKBGeometryType.from_u32 (3001 % 1000),
              3001 / 1000 == 1 || 3001 / 1000 == 3,
              3001 / 1000 == 2 || 3001 / 1000 == 3, none, []⟩, [])
      ∧ (3001 / 1000 = 0 →
          (3001 / 1000 == 1 || 3001 / 1000 == 3) = false
          ∧ (3001 / 1000 == 2 || 3001 / 1000 == 3) = false)
      ∧ (3001 / 1000 = 1 →
          (3001 / 1000 == 1 || 3001 / 1000 == 3) = true
          ∧ (3001 / 1000 == 2 || 3001 / 1000 == 3) = false)
      ∧ (3001 / 1000 = 2 →
          (3001 / 1000 == 1 || 3001 / 1000 == 3) = false
          ∧ (3001 / 1000 == 2 || 3001 / 1000 == 3) = true)
      ∧ (3001 / 1000 = 3 →
          (3001 / 1000 == 1 || 3001 / 1000 == 3) = true
          ∧ (3001 / 1000 == 2 || 3001 / 1000 == 3) = true)) :=
  ⟨rfl, wkb_header_type_code 1 [0xB9, 0x0B, 0x00, 0x00] [] 3001 rfl⟩

/-- C4: whenever the EWKB header decoder reads byte-order byte `bo` and a
32-bit type code `code`, the base kind is `from_u32 (code &&& 0xFF)`, `has_z`
is the 0x80000000 bit, `has_m` the 0x40000000 bit (shown equal to
`testBit 31` / `testBit 30`), and iff the 0x20000000 bit (`testBit 29`) is
set one further signed 32-bit value is read under the same byte order as the
SRID — otherwise `srid = none` and nothing further is consumed. -/
theorem ewkb_header_type_code (bo : Nat) (s s' : List Nat) (code : Nat)
    (h : ioreadU32 (byteOrderEndian bo) s = .ok (code, s')) :
    ((code &&& 0x80000000 == 0x80000000) = code.testBit 31)
    ∧ ((code &&& 0x40000000 == 0x40000000) = code.testBit 30)
    ∧ ((code &&& 0x20000000 == 0x20000000) = code.testBit 29)
    ∧ ((code &&& 0x20000000 == 0x20000000) = false →
        read_ewkb_header (bo :: s) =
          .ok (⟨byteOrderEndian bo, WKBGeometryType.from_u32 (code &&& 0xFF),
                code &&& 0x80000000 == 0x80000000,
                code &&& 0x40000000 == 0x40000000, none, []⟩, s'))
    ∧ ((code &&& 0x20000000 == 0x20000000) = true →
        ∀ (v : Int) (s'' : List Nat),
          ioreadI32 (byteOrderEndian bo) s' = .ok (v, s'') →
          read_ewkb_header (bo :: s) =
            .ok (⟨byteOrderEndian bo, WKBGeometryType.from_u32 (code &&& 0xFF),
                  code &&& 0x80000000 == 0x80000000,
                  code &&& 0x40000000 == 0x40000000, some v, []⟩, s'')) := by
  have bit : ∀ i : Nat, (code &&& 2 ^ i == 2 ^ i) = code.testBit i := by
    intro i
    rw [Nat.and_two_pow]
    cases hbit : code.testBit i <;> simp [(Nat.two_pow_pos i).ne]
  refine ⟨?_, ?_, ?_, ?_, ?_⟩
  · simpa using bit 31
  · simpa using bit 30
  · simpa using bit 29
  · intro hno
    simp [read_ewkb_header, ioreadU8, h, hno]
  · intro hyes v s'' hv
    simp [read_ewkb_header, ioreadU8, h, hyes, hv]

/-- Witness for `ewkb_header_type_code`: the little-endian EWKB type code
0x20000004 (MultiPoint with the SRID flag) followed by SRID 4326. -/
theorem ewkb_header_type_code_witness :
    ioreadU32 (byteOrderEndian 1) [0x04, 0x00, 0x00, 0x20, 0xE6, 0x10, 0x00, 0x00]
      = .ok (0x20000004, [0xE6, 0x10, 0x00, 0x00])
    ∧ (((0x20000004 &&& 0x80000000 : Nat) == 0x80000000) = (0x20000004 : Nat).testBit 31
      ∧ ((0x20000004 &&& 0x40000000 : Nat) == 0x40000000) = (0x20000004 : Nat).testBit 30
      ∧ ((0x20000004 &&& 0x20000000 : Nat) == 0x20000000) = (0x20000004 : Nat).testBit 29
      ∧ (((0x20000004 &&& 0x20000000 : Nat) == 0x20000000) = false →
          read_ewkb_header (1 :: [0x04, 0x00, 0x00, 0x20, 0xE6, 0x10, 0x00, 0x00]) =
            .ok (⟨byteOrderEndian 1,
                  WKBGeometryType.from_u32 (0x20000004 &&& 0xFF),
                  (0x20000004 &&& 0x80000000 : Nat) == 0x80000000,
                  (0x20000004 &&& 0x40000000 : Nat) == 0x40000000, none, []⟩,
              [0xE6, 0x10, 0x00, 0x00]))
      ∧ (((0x20000004 &&& 0x20000000 : Nat) == 0x20000000) = true →
          ∀ (v : Int) (s'' : List Nat),
            ioreadI32 (byteOrderEndian 1) [0xE6, 0x10, 0x00, 0x00] = .ok (v, s'') →
            read_ewkb_header (1 :: [0x04, 0x00, 0x00, 0x20, 0xE6, 0x10, 0x00, 0x00]) =
              .ok (⟨byteOrderEndian 1,
                    WKBGeometryType.from_u32 (0x20000004 &&& 0xFF),
                    (0x20000004 &&& 0x80000000 : Nat) == 0x80000000,
                    (0x20000004 &&& 0x40000000 : Nat) == 0x40000000, some v, []⟩,
                s''))) :=
  ⟨rfl, ewkb_header_type_code 1 [0x04, 0x00, 0x00, 0x20, 0xE6, 0x10, 0x00, 0x00]
    [0xE6, 0x10, 0x00, 0x00] 0x20000004 rfl⟩

end GeozeroWkb

namespace GeozeroWkb

/-- A successful envelope read returns exactly as many f64 words as asked. -/
theorem read_envelope_length (e : Endian) (n : Nat) (s env s' : List Nat)
    (h : read_envelope e n s = .ok (env, s')) : env.length = n := by
  induction n generalizing s env s' with
  | zero =>
    simp only [read_envelope] at h
    cases h
    rfl
  | succ k ih =>
    simp only [read_envelope] at h
    split at h
    · exact absurd h (by simp)
    · split at h
      · exact absurd h (by simp)
      · rename_i v s1 hv vs s2 hr
        simp only [Except.ok.injEq, Prod.mk.injEq] at h
        obtain ⟨henv, _⟩ := h
        subst henv
        simp [ih _ _ _ hr]

/-- Inversion of a successful GPKG header decode with valid magic: the
GPKG-level fields and the embedded OGC header the result was merged from. -/
theorem read_gpkg_header_inv (v f : Nat) (rest : List Nat) (info : WkbInfo)
    (s' : List Nat)
    (hok : read_gpkg_header (71 :: 80 :: v :: f :: rest) = .ok (info, s')) :
    ∃ n sr s5 env s6 ogc,
      gpkgEnvLen ((f &&& 0xE) >>> 1) = .ok n
      ∧ ioreadI32 (if f &&& 1 = 0 then Endian.be else Endian.le) rest = .ok (sr, s5)
      ∧ read_envelope (if f &&& 1 = 0 then Endian.be else Endian.le) n s5 = .ok (env, s6)
      ∧ read_wkb_header s6 = .ok (ogc, s')
      ∧ info = ⟨if f &&& 1 = 0 then Endian.be else Endian.le,
                ogc.base_type, ogc.has_z, ogc.has_m, some sr, env⟩ := by
  simp only [read_gpkg_header, ioreadU8] at hok
  rw [if_pos (by simp)] at hok
  split at hok
  · exact absurd hok (by simp)
  · split at hok
    · exact absurd hok (by simp)
    · split at hok
      · exact absurd hok (by simp)
      · split at hok
        · exact absurd hok (by simp)
        · simp only [Except.ok.injEq, Prod.mk.injEq] at hok
          obtain ⟨hinfo, hs7⟩ := hok
          subst hs7
          exact ⟨_, _, _, _, _, _, by assumption, by assumption, by assumption,
            by assumption, hinfo.symm⟩

/-- C2: on a well-formed GPKG stream, the merged header takes its base type,
`has_z` and `has_m` from the embedded OGC header decoded after the envelope,
and its byte order (flags bit 0), SRID (always `some`) and envelope from the
GPKG-level fields read before it. -/
theorem gpkg_header_merge (v f : Nat) (rest s1 s2 s3 : List Nat) (n : Nat)
    (sridv : Int) (env : List Nat) (ogc : WkbInfo)
    (hn : gpkgEnvLen ((f &&& 0xE) >>> 1) = .ok n)
    (hs : ioreadI32 (if f &&& 1 = 0 then Endian.be else Endian.le) rest = .ok (sridv, s1))
    (he : read_envelope (if f &&& 1 = 0 then Endian.be else Endian.le) n s1 = .ok (env, s2))
    (ho : read_wkb_header s2 = .ok (ogc, s3)) :
    read_gpkg_header (71 :: 80 :: v :: f :: rest) =
      .ok (⟨if f &&& 1 = 0 then Endian.be else Endian.le,
            ogc.base_type, ogc.has_z, ogc.has_m, some sridv, env⟩, s3) := by
  simp only [read_gpkg_header, ioreadU8]
  rw [if_pos (by simp)]
  simp only [hn, hs, he, ho]

/-- The test stream `pt2d`: GPKG, little-endian, envelope selector 1
(4 doubles), SRID 4326, embedded 2D OGC point (1.1, 1.1). -/
def gpkgPt2d : List Nat :=
  [0x47, 0x50, 0x00, 0x03, 0xE6, 0x10, 0x00, 0x00,
   0x9A, 0x99, 0x99, 0x99, 0x99, 0x99, 0xF1, 0x3F,
   0x9A, 0x99, 0x99, 0x99, 0x99, 0x99, 0xF1, 0x3F,
   0x9A, 0x99, 0x99, 0x99, 0x99, 0x99, 0xF1, 0x3F,
   0x9A, 0x99, 0x99, 0x99, 0x99, 0x99, 0xF1, 0x3F,
   0x01, 0x01, 0x00, 0x00, 0x00,
   0x9A, 0x99, 0x99, 0x99, 0x99, 0x99, 0xF1, 0x3F,
   0x9A, 0x99, 0x99, 0x99, 0x99, 0x99, 0xF1, 0x3F]

/-- Witness for `gpkg_header_merge`, instantiated on the `pt2d` test vector. -/
theorem gpkg_header_merge_witness :
    gpkgEnvLen ((3 &&& 0xE) >>> 1) = .ok 4
    ∧ ioreadI32 (if 3 &&& 1 = 0 then Endian.be else Endian.le) (gpkgPt2d.drop 4)
      = .ok (4326, gpkgPt2d.drop 8)
    ∧ read_envelope (if 3 &&& 1 = 0 then Endian.be else Endian.le) 4 (gpkgPt2d.drop 8)
      = .ok ([0x3FF199999999999A, 0x3FF199999999999A,
              0x3FF199999999999A, 0x3FF199999999999A], gpkgPt2d.drop 40)
    ∧ read_wkb_header (gpkgPt2d.drop 40)
      = .ok (⟨.le, .Point, false, false, none, []⟩, gpkgPt2d.drop 45)
    ∧ read_gpkg_header (71 :: 80 :: 0 :: 3 :: gpkgPt2d.drop 4) =
      .ok (⟨if 3 &&& 1 = 0 then Endian.be else Endian.le,
            WkbInfo.base_type ⟨.le, .Point, false, false, none, []⟩,
            WkbInfo.has_z ⟨.le, .Point, false, false, none, []⟩,
            WkbInfo.has_m ⟨.le, .Point, false, false, none, []⟩,
            some 4326,
            [0x3FF199999999999A, 0x3FF199999999999A,
             0x3FF199999999999A, 0x3FF199999999999A]⟩, gpkgPt2d.drop 45) :=
  ⟨rfl, rfl, rfl, rfl,
   gpkg_header_merge 0 3 (gpkgPt2d.drop 4) (gpkgPt2d.drop 8) (gpkgPt2d.drop 40)
     (gpkgPt2d.drop 45) 4 4326
     [0x3FF199999999999A, 0x3FF199999999999A,
      0x3FF199999999999A, 0x3FF199999999999A]
     ⟨.le, .Point, false, false, none, []⟩ rfl rfl rfl rfl⟩

/-- C5: the envelope selector (flags bits 1-3) values 0, 1, 2, 3, 4 make the
GPKG decoder read exactly 0, 4, 6, 6, 8 doubles into the envelope, and
selector values 5, 6, 7 make it fail with a geometry-format error for every
continuation of the stream, hence before any SRID is read. -/
theorem gpkg_envelope_selector (v f : Nat) (rest : List Nat) (info : WkbInfo)
    (s' : List Nat) (n : Nat) (v2 f2 : Nat) (rest2 : List Nat)
    (hok : read_gpkg_header (71 :: 80 :: v :: f :: rest) = .ok (info, s'))
    (hn : gpkgEnvLen ((f &&& 0xE) >>> 1) = .ok n)
    (hbad : 5 ≤ (f2 &&& 0xE) >>> 1) :
    info.envelope.length = n
    ∧ gpkgEnvLen 0 = .ok 0 ∧ gpkgEnvLen 1 = .ok 4 ∧ gpkgEnvLen 2 = .ok 6
    ∧ gpkgEnvLen 3 = .ok 6 ∧ gpkgEnvLen 4 = .ok 8
    ∧ gpkgEnvLen 5 = .error .GeometryFormat
    ∧ gpkgEnvLen 6 = .error .GeometryFormat
    ∧ gpkgEnvLen 7 = .error .GeometryFormat
    ∧ read_gpkg_header (71 :: 80 :: v2 :: f2 :: rest2) = .error .GeometryFormat := by
  obtain ⟨n', sr, s5, env, s6, ogc, hn', hI, hE, hW, hinfo⟩ :=
    read_gpkg_header_inv v f rest info s' hok
  have hnn : n' = n := by
    rw [hn'] at hn
    cases hn
    rfl
  subst hnn
  refine ⟨?_, rfl, rfl, rfl, rfl, rfl, rfl, rfl, rfl, ?_⟩
  · rw [hinfo]
    exact read_envelope_length _ _ _ _ _ hE
  · obtain ⟨k, hk⟩ : ∃ k, (f2 &&& 0xE) >>> 1 = k + 5 :=
      ⟨(f2 &&& 0xE) >>> 1 - 5, by omega⟩
    simp only [read_gpkg_header, ioreadU8]
    rw [if_pos (by simp), hk]
    rfl

/-- Witness for `gpkg_envelope_selector`: the `pt2d` stream (selector 1)
and a flags byte 0x0A (selector 5). -/
theorem gpkg_envelope_selector_witness :
    read_gpkg_header (71 :: 80 :: 0 :: 3 :: gpkgPt2d.drop 4) =
      .ok (⟨.le, .Point, false, false, some 4326,
            [0x3FF199999999999A, 0x3FF199999999999A,
             0x3FF199999999999A, 0x3FF199999999999A]⟩, gpkgPt2d.drop 45)
    ∧ gpkgEnvLen ((3 &&& 0xE) >>> 1) = .ok 4
    ∧ 5 ≤ ((0x0A &&& 0xE) >>> 1)
    ∧ (WkbInfo.envelope ⟨.le, .Point, false, false, some 4326,
        [0x3FF199999999999A, 0x3FF199999999999A,
         0x3FF199999999999A, 0x3FF199999999999A]⟩).length = 4
    ∧ read_gpkg_header (71 :: 80 :: 0 :: 0x0A :: []) = .error .GeometryFormat :=
  ⟨rfl, rfl, by decide,
   (gpkg_envelope_selector 0 3 (gpkgPt2d.drop 4)
     ⟨.le, .Point, false, false, some 4326,
      [0x3FF199999999999A, 0x3FF199999999999A,
       0x3FF199999999999A, 0x3FF199999999999A]⟩
     (gpkgPt2d.drop 45) 4 0 0x0A [] rfl rfl (by decide)).1,
   (gpkg_envelope_selector 0 3 (gpkgPt2d.drop 4)
     ⟨.le, .Point, false, false, some 4326,
      [0x3FF199999999999A, 0x3FF199999999999A,
       0x3FF199999999999A, 0x3FF199999999999A]⟩
     (gpkgPt2d.drop 45) 4 0 0x0A [] rfl rfl (by decide)).2.2.2.2.2.2.2.2.2⟩

end GeozeroWkb

namespace GeozeroWkb

/-- C7 part: dispatch rejects the four kinds with a format error and no calls. -/
theorem unsupported_kind_dispatch {σ : Type} (p : GeomProcessor σ)
    (rh : HeaderReader) (fuel : Nat) (info : WkbInfo) (idx : Nat)
    (s : List Nat) (st : σ) (code : Nat)
    (hkind : info.base_type = .Triangle ∨ info.base_type = .PolyhedralSurface
      ∨ info.base_type = .TIN ∨ info.base_type = .Unknown)
    (hcode : code ∉ wkbKnownCodes) :
    process_wkb_geom_n p rh (fuel + 1) info idx s st = (.error .GeometryFormat, [])
    ∧ WKBGeometryType.from_u32 code = .Unknown := by
  constructor
  · rcases hkind with h | h | h | h <;> simp [process_wkb_geom_n, h]
  · simp only [wkbKnownCodes, List.mem_cons, List.not_mem_nil, or_false, not_or] at hcode
    unfold WKBGeometryType.from_u32
    split <;> first | rfl | omega

theorem readBytes_error_io (n : Nat) (s : List Nat) (e : GErr)
    (h : readBytes n s = .error e) : e = .IoError := by
  induction n generalizing s with
  | zero => simp [readBytes] at h
  | succ k ih =>
    cases s with
    | nil =>
      simp only [readBytes] at h
      cases h
      rfl
    | cons b r =>
      simp only [readBytes] at h
      cases hr : readBytes k r with
      | error e' =>
        rw [hr] at h
        cases h
        exact ih r hr
      | ok q =>
        rw [hr] at h
        obtain ⟨bs, r'⟩ := q
        simp at h

theorem readBytes_ok_length (n : Nat) (s bs s' : List Nat)
    (h : readBytes n s = .ok (bs, s')) : s.length = n + s'.length := by
  induction n generalizing s bs s' with
  | zero =>
    simp only [readBytes] at h
    cases h
    simp
  | succ k ih =>
    cases s with
    | nil => simp [readBytes] at h
    | cons b r =>
      simp only [readBytes] at h
      cases hr : readBytes k r with
      | error e' => rw [hr] at h; simp at h
      | ok q =>
        obtain ⟨bs2, r2⟩ := q
        rw [hr] at h
        simp only [Except.ok.injEq, Prod.mk.injEq] at h
        obtain ⟨hbs, hs⟩ := h
        subst hs
        have hlen := ih r bs2 _ hr
        simp only [List.length_cons]
        omega

end GeozeroWkb

namespace GeozeroWkb

theorem ioreadI32_error_io (e : Endian) (s : List Nat) (e' : GErr)
    (h : ioreadI32 e s = .error e') : e' = .IoError := by
  simp only [ioreadI32] at h
  cases hr : readBytes 4 s with
  | error e2 =>
    rw [hr] at h
    cases h
    exact readBytes_error_io 4 s e' hr
  | ok q =>
    obtain ⟨bs, r⟩ := q
    rw [hr] at h
    simp at h

theorem ioreadI32_ok_length (e : Endian) (s : List Nat) (v : Int) (s' : List Nat)
    (h : ioreadI32 e s = .ok (v, s')) : s.length = 4 + s'.length := by
  simp only [ioreadI32] at h
  cases hr : readBytes 4 s with
  | error e2 => rw [hr] at h; simp at h
  | ok q =>
    obtain ⟨bs, r⟩ := q
    rw [hr] at h
    simp only [Except.ok.injEq, Prod.mk.injEq] at h
    obtain ⟨-, hs⟩ := h
    subst hs
    exact readBytes_ok_length 4 s bs _ hr

theorem ioreadF64_error_io (e : Endian) (s : List Nat) (e' : GErr)
    (h : ioreadF64 e s = .error e') : e' = .IoError := by
  simp only [ioreadF64] at h
  cases hr : readBytes 8 s with
  | error e2 =>
    rw [hr] at h
    cases h
    exact readBytes_error_io 8 s e' hr
  | ok q =>
    obtain ⟨bs, r⟩ := q
    rw [hr] at h
    simp at h

theorem ioreadF64_ok_length (e : Endian) (s : List Nat) (v : Nat) (s' : List Nat)
    (h : ioreadF64 e s = .ok (v, s')) : s.length = 8 + s'.length := by
  simp only [ioreadF64] at h
  cases hr : readBytes 8 s with
  | error e2 => rw [hr] at h; simp at h
  | ok q =>
    obtain ⟨bs, r⟩ := q
    rw [hr] at h
    simp only [Except.ok.injEq, Prod.mk.injEq] at h
    obtain ⟨-, hs⟩ := h
    subst hs
    exact readBytes_ok_length 8 s bs _ hr

theorem ioreadU32_error_io (e : Endian) (s : List Nat) (e' : GErr)
    (h : ioreadU32 e s = .error e') : e' = .IoError := by
  simp only [ioreadU32] at h
  cases hr : readBytes 4 s with
  | error e2 =>
    rw [hr] at h
    cases h
    exact readBytes_error_io 4 s e' hr
  | ok q =>
    obtain ⟨bs, r⟩ := q
    rw [hr] at h
    simp at h

theorem read_envelope_error_io (e : Endian) (n : Nat) (s : List Nat) (e' : GErr)
    (h : read_envelope e n s = .error e') : e' = .IoError := by
  induction n generalizing s with
  | zero => simp [read_envelope] at h
  | succ k ih =>
    simp only [read_envelope] at h
    cases hv : ioreadF64 e s with
    | error e2 =>
      rw [hv] at h
      cases h
      exact ioreadF64_error_io e s e' hv
    | ok q =>
      obtain ⟨x, s1⟩ := q
      rw [hv] at h
      simp only at h
      cases hr : read_envelope e k s1 with
      | error e2 =>
        rw [hr] at h
        cases h
        exact ih s1 hr
      | ok q2 =>
        obtain ⟨vs, s2⟩ := q2
        rw [hr] at h
        simp at h

theorem read_envelope_ok_length (e : Endian) (n : Nat) (s env s' : List Nat)
    (h : read_envelope e n s = .ok (env, s')) : s.length = 8 * n + s'.length := by
  induction n generalizing s env s' with
  | zero =>
    simp only [read_envelope] at h
    cases h
    simp
  | succ k ih =>
    simp only [read_envelope] at h
    cases hv : ioreadF64 e s with
    | error e2 => rw [hv] at h; simp at h
    | ok q =>
      obtain ⟨x, s1⟩ := q
      rw [hv] at h
      simp only at h
      cases hr : read_envelope e k s1 with
      | error e2 => rw [hr] at h; simp at h
      | ok q2 =>
        obtain ⟨vs, s2⟩ := q2
        rw [hr] at h
        simp only [Except.ok.injEq, Prod.mk.injEq] at h
        obtain ⟨-, hs⟩ := h
        subst hs
        have h1 := ioreadF64_ok_length e s x s1 hv
        have h2 := ih s1 vs _ hr
        omega

theorem read_wkb_header_error_io (s : List Nat) (e' : GErr)
    (h : read_wkb_header s = .error e') : e' = .IoError := by
  simp only [read_wkb_header] at h
  cases s with
  | nil =>
    simp only [ioreadU8] at h
    cases h
    rfl
  | cons b r =>
    simp only [ioreadU8] at h
    cases hu : ioreadU32 (byteOrderEndian b) r with
    | error e2 =>
      rw [hu] at h
      cases h
      exact ioreadU32_error_io _ r e' hu
    | ok q =>
      obtain ⟨t, s2⟩ := q
      rw [hu] at h
      simp at h

theorem read_wkb_header_ok_length (s : List Nat) (info : WkbInfo) (s' : List Nat)
    (h : read_wkb_header s = .ok (info, s')) : s.length = 5 + s'.length := by
  simp only [read_wkb_header] at h
  cases s with
  | nil => simp [ioreadU8] at h
  | cons b r =>
    simp only [ioreadU8] at h
    cases hu : ioreadU32 (byteOrderEndian b) r with
    | error e2 => rw [hu] at h; simp at h
    | ok q =>
      obtain ⟨t, s2⟩ := q
      rw [hu] at h
      simp only [Except.ok.injEq, Prod.mk.injEq] at h
      obtain ⟨-, hs⟩ := h
      have hr4 : r.length = 4 + s2.length := by
        simp only [ioreadU32] at hu
        cases hr : readBytes 4 r with
        | error e2 => rw [hr] at hu; simp at hu
        | ok q2 =>
          obtain ⟨bs, r2⟩ := q2
          rw [hr] at hu
          simp only [Except.ok.injEq, Prod.mk.injEq] at hu
          obtain ⟨-, hs2⟩ := hu
          subst hs2
          exact readBytes_ok_length 4 r bs _ hr
      have hss : s2.length = s'.length := by rw [hs]
      simp only [List.length_cons]
      omega

/-- C6 (amended): bad magic always yields a geometry-format error; an empty
stream, a one-byte stream, a stream truncated inside the magic/version/flags
prefix, or a stream with valid magic and a valid envelope selector that is
truncated anywhere before the end of the embedded OGC header, yields an I/O
error, never a format error. -/
theorem gpkg_magic_and_truncation (b0 b1 : Nat) (rest : List Nat)
    (v f n : Nat) (rest2 : List Nat) (v3 : Nat)
    (hmagic : ¬(b0 = 71 ∧ b1 = 80))
    (hn : gpkgEnvLen ((f &&& 0xE) >>> 1) = .ok n)
    (hlen : rest2.length < 9 + 8 * n) :
    read_gpkg_header (b0 :: b1 :: rest) = .error .GeometryFormat
    ∧ read_gpkg_header [] = .error .IoError
    ∧ read_gpkg_header [b0] = .error .IoError
    ∧ read_gpkg_header [71, 80] = .error .IoError
    ∧ read_gpkg_header [71, 80, v3] = .error .IoError
    ∧ read_gpkg_header (71 :: 80 :: v :: f :: rest2) = .error .IoError := by
  refine ⟨?_, rfl, rfl, rfl, rfl, ?_⟩
  · simp only [read_gpkg_header, ioreadU8]
    rw [if_neg]
    simp only [Bool.and_eq_true, beq_iff_eq, not_and]
    intro h1 h2
    exact hmagic ⟨h1, h2⟩
  · simp only [read_gpkg_header, ioreadU8]
    rw [if_pos (by simp), hn]
    simp only
    cases hI : ioreadI32 (if f &&& 1 = 0 then Endian.be else Endian.le) rest2 with
    | error e =>
      simp only [hI]
      rw [ioreadI32_error_io _ _ _ hI]
    | ok q =>
      obtain ⟨sr, s5⟩ := q
      simp only [hI]
      have hI_len := ioreadI32_ok_length _ _ _ _ hI
      cases hE : read_envelope (if f &&& 1 = 0 then Endian.be else Endian.le) n s5 with
      | error e =>
        simp only [hE]
        rw [read_envelope_error_io _ _ _ _ hE]
      | ok q2 =>
        obtain ⟨env, s6⟩ := q2
        simp only [hE]
        have hE_len := read_envelope_ok_length _ _ _ _ _ hE
        cases hW : read_wkb_header s6 with
        | error e =>
          simp only [hW]
          rw [read_wkb_header_error_io _ _ hW]
        | ok q3 =>
          obtain ⟨ogc, s7⟩ := q3
          have hW_len := read_wkb_header_ok_length _ _ _ hW
          omega

/-- C6 counterexample: the claim's "fails with a geometry-format error
exactly when the first two bytes are not GP" is false: the stream
`47 50 00 0A` has valid magic yet fails with a format error (its envelope
selector is 5). -/
theorem gpkg_magic_exactly_when_cex :
    ¬ (∀ s : List Nat, 2 ≤ s.length →
        (read_gpkg_header s = .error .GeometryFormat ↔ ¬ s.take 2 = [71, 80])) := by
  intro h
  have h2 := (h [71, 80, 0, 0x0A] (by decide)).mp rfl
  exact h2 (by decide)

/-- Witness for `gpkg_magic_and_truncation`: bad magic `00 00`, flags 0
(selector 0), empty continuation. -/
theorem gpkg_magic_and_truncation_witness :
    (¬((0 : Nat) = 71 ∧ (0 : Nat) = 80))
    ∧ gpkgEnvLen ((0 &&& 0xE) >>> 1) = .ok 0
    ∧ ([] : List Nat).length < 9 + 8 * 0
    ∧ (read_gpkg_header (0 :: 0 :: []) = .error .GeometryFormat
      ∧ read_gpkg_header [] = .error .IoError
      ∧ read_gpkg_header [0] = .error .IoError
      ∧ read_gpkg_header [71, 80] = .error .IoError
      ∧ read_gpkg_header [71, 80, 0] = .error .IoError
      ∧ read_gpkg_header (71 :: 80 :: 0 :: 0 :: []) = .error .IoError) :=
  ⟨by decide, rfl, by decide,
   gpkg_magic_and_truncation 0 0 [] 0 0 0 [] 0 (by decide) rfl (by decide)⟩

end GeozeroWkb

namespace GeozeroWkb

/-- Witness for `unsupported_kind_dispatch`: a Triangle header and the
unrecognised code 999. -/
theorem unsupported_kind_dispatch_witness :
    ((⟨.be, .Triangle, false, false, none, []⟩ : WkbInfo).base_type = .Triangle
      ∨ (⟨.be, .Triangle, false, false, none, []⟩ : WkbInfo).base_type = .PolyhedralSurface
      ∨ (⟨.be, .Triangle, false, false, none, []⟩ : WkbInfo).base_type = .TIN
      ∨ (⟨.be, .Triangle, false, false, none, []⟩ : WkbInfo).base_type = .Unknown)
    ∧ (999 : Nat) ∉ wkbKnownCodes
    ∧ (process_wkb_geom_n recP2d read_wkb_header (0 + 1)
        ⟨.be, .Triangle, false, false, none, []⟩ 0 [] [] =
          (.error .GeometryFormat, [])
      ∧ WKBGeometryType.from_u32 999 = .Unknown) :=
  ⟨Or.inl rfl, by decide,
   unsupported_kind_dispatch recP2d read_wkb_header 0
     ⟨.be, .Triangle, false, false, none, []⟩ 0 [] [] 999 (Or.inl rfl) (by decide)⟩

end GeozeroWkb

namespace GeozeroWkb

/-- Every recorded processor call succeeded. -/
def allOk (t : List TraceEntry) : Prop := ∀ ent ∈ t, ent.2 = none

/-- The call discipline of a walker result: on success every recorded
callback succeeded; on failure either no callback failed (the error came
from the stream or the fuel bound) or exactly the last recorded callback
failed, with the very error the walk returns — so a failing callback is
always the final processor call and its error is propagated unchanged. -/
def GoodRes {σ : Type} (r : WRes σ) : Prop :=
  match r.1 with
  | .ok _ => allOk r.2
  | .error e => allOk r.2 ∨ ∃ t1 ev, r.2 = t1 ++ [(ev, some e)] ∧ allOk t1

theorem allOk_nil : allOk [] := by
  intro ent h
  cases h

theorem allOk_append (a b : List TraceEntry) (ha : allOk a) (hb : allOk b) :
    allOk (a ++ b) := by
  intro ent h
  rcases List.mem_append.mp h with h' | h'
  · exact ha ent h'
  · exact hb ent h'

theorem goodRes_pcall {σ : Type} (p : GeomProcessor σ) (ev : GeomEvent)
    (s : List Nat) (st : σ) : GoodRes (pcall p ev s st) := by
  unfold pcall
  cases p.handle ev st with
  | ok st2 =>
    intro ent h
    rcases List.mem_singleton.mp h with rfl
    rfl
  | error e =>
    exact Or.inr ⟨[], ev, rfl, allOk_nil⟩

theorem goodRes_rread {σ α : Type} (r : Except GErr (α × List Nat))
    (f : α → List Nat → WRes σ) (hf : ∀ a s, GoodRes (f a s)) :
    GoodRes (rread r f) := by
  cases r with
  | error e => exact Or.inl allOk_nil
  | ok q =>
    obtain ⟨a, s⟩ := q
    exact hf a s

theorem goodRes_wbind {σ : Type} (r : WRes σ) (f : List Nat → σ → WRes σ)
    (hr : GoodRes r) (hf : ∀ s st, GoodRes (f s st)) :
    GoodRes (wbind r f) := by
  obtain ⟨res, t⟩ := r
  cases res with
  | error e => exact hr
  | ok q =>
    obtain ⟨s, st⟩ := q
    have ht : allOk t := hr
    have hft := hf s st
    rcases hr2 : f s st with ⟨res2, t2⟩
    rw [hr2] at hft
    show GoodRes ((f s st).1, t ++ (f s st).2)
    rw [hr2]
    cases res2 with
    | ok v => exact allOk_append t t2 ht hft
    | error e =>
      rcases hft with h | ⟨t1, ev, hsplit, h1⟩
      · exact Or.inl (allOk_append t t2 ht h)
      · refine Or.inr ⟨t ++ t1, ev, ?_, allOk_append t t1 ht h1⟩
        rw [hsplit, List.append_assoc]

theorem goodRes_process_coord {σ : Type} (p : GeomProcessor σ) (info : WkbInfo)
    (multi : Bool) (idx : Nat) (s : List Nat) (st : σ) :
    GoodRes (process_coord p info multi idx s st) := by
  unfold process_coord
  apply goodRes_rread
  intro x s
  apply goodRes_rread
  intro y s
  apply goodRes_rread
  intro z s
  apply goodRes_rread
  intro m s
  cases multi with
  | true => exact goodRes_pcall p _ s st
  | false => exact goodRes_pcall p _ s st

theorem goodRes_coords_items {σ : Type} (p : GeomProcessor σ) (info : WkbInfo)
    (multi : Bool) (k i : Nat) (s : List Nat) (st : σ) :
    GoodRes (coords_items p info multi k i s st) := by
  induction k generalizing i s st with
  | zero => exact allOk_nil
  | succ k ih =>
    exact goodRes_wbind _ _ (goodRes_process_coord p info multi i s st)
      (fun s st => ih (i + 1) s st)

theorem goodRes_process_linestring {σ : Type} (p : GeomProcessor σ)
    (info : WkbInfo) (tagged : Bool) (idx : Nat) (s : List Nat) (st : σ) :
    GoodRes (process_linestring p info tagged idx s st) := by
  unfold process_linestring
  apply goodRes_rread
  intro length s
  apply goodRes_wbind _ _ (goodRes_pcall p _ s st)
  intro s st
  apply goodRes_wbind _ _ (goodRes_coords_items p info (multi_dim p) length 0 s st)
  intro s st
  exact goodRes_pcall p _ s st

theorem goodRes_rings_items {σ : Type} (p : GeomProcessor σ) (info : WkbInfo)
    (k i : Nat) (s : List Nat) (st : σ) :
    GoodRes (rings_items p info k i s st) := by
  induction k generalizing i s st with
  | zero => exact allOk_nil
  | succ k ih =>
    exact goodRes_wbind _ _ (goodRes_process_linestring p info false i s st)
      (fun s st => ih (i + 1) s st)

theorem goodRes_process_polygon {σ : Type} (p : GeomProcessor σ)
    (info : WkbInfo) (tagged : Bool) (idx : Nat) (s : List Nat) (st : σ) :
    GoodRes (process_polygon p info tagged idx s st) := by
  unfold process_polygon
  apply goodRes_rread
  intro ring_count s
  apply goodRes_wbind _ _ (goodRes_pcall p _ s st)
  intro s st
  apply goodRes_wbind _ _ (goodRes_rings_items p info ring_count 0 s st)
  intro s st
  exact goodRes_pcall p _ s st

theorem goodRes_mpoint_items {σ : Type} (p : GeomProcessor σ)
    (rh : HeaderReader) (multi : Bool) (k i : Nat) (s : List Nat) (st : σ) :
    GoodRes (mpoint_items p rh multi k i s st) := by
  induction k generalizing i s st with
  | zero => exact allOk_nil
  | succ k ih =>
    apply goodRes_rread
    intro cinfo s
    exact goodRes_wbind _ _ (goodRes_process_coord p cinfo multi i s st)
      (fun s st => ih (i + 1) s st)

theorem goodRes_mline_items {σ : Type} (p : GeomProcessor σ)
    (rh : HeaderReader) (k i : Nat) (s : List Nat) (st : σ) :
    GoodRes (mline_items p rh k i s st) := by
  induction k generalizing i s st with
  | zero => exact allOk_nil
  | succ k ih =>
    apply goodRes_rread
    intro cinfo s
    exact goodRes_wbind _ _ (goodRes_process_linestring p cinfo false i s st)
      (fun s st => ih (i + 1) s st)

theorem goodRes_mpoly_items {σ : Type} (p : GeomProcessor σ)
    (rh : HeaderReader) (k i : Nat) (s : List Nat) (st : σ) :
    GoodRes (mpoly_items p rh k i s st) := by
  induction k generalizing i s st with
  | zero => exact allOk_nil
  | succ k ih =>
    apply goodRes_rread
    intro cinfo s
    exact goodRes_wbind _ _ (goodRes_process_polygon p cinfo false i s st)
      (fun s st => ih (i + 1) s st)

theorem goodRes_gc_items {σ : Type} (p : GeomProcessor σ) (rh : HeaderReader)
    (recurse : WkbInfo → Nat → List Nat → σ → WRes σ)
    (hrec : ∀ cinfo i s st, GoodRes (recurse cinfo i s st))
    (k i : Nat) (s : List Nat) (st : σ) :
    GoodRes (gc_items p rh recurse k i s st) := by
  induction k generalizing i s st with
  | zero => exact allOk_nil
  | succ k ih =>
    apply goodRes_rread
    intro cinfo s
    exact goodRes_wbind _ _ (hrec cinfo i s st)
      (fun s st => ih (i + 1) s st)

theorem goodRes_process_wkb_geom_n {σ : Type} (p : GeomProcessor σ)
    (rh : HeaderReader) (fuel : Nat) (info : WkbInfo) (idx : Nat)
    (s : List Nat) (st : σ) :
    GoodRes (process_wkb_geom_n p rh fuel info idx s st) := by
  induction fuel generalizing info idx s st with
  | zero => exact Or.inl allOk_nil
  | succ fuel ih =>
    show GoodRes (process_wkb_geom_n p rh (fuel + 1) info idx s st)
    unfold process_wkb_geom_n
    split
    · apply goodRes_wbind _ _ (goodRes_pcall p _ s st)
      intro s st
      apply goodRes_wbind _ _ (goodRes_process_coord p info (multi_dim p) 0 s st)
      intro s st
      exact goodRes_pcall p _ s st
    · apply goodRes_rread
      intro n_pts s
      apply goodRes_wbind _ _ (goodRes_pcall p _ s st)
      intro s st
      apply goodRes_wbind _ _ (goodRes_mpoint_items p rh (multi_dim p) n_pts 0 s st)
      intro s st
      exact goodRes_pcall p _ s st
    · exact goodRes_process_linestring p info true idx s st
    · apply goodRes_rread
      intro n_lines s
      apply goodRes_wbind _ _ (goodRes_pcall p _ s st)
      intro s st
      apply goodRes_wbind _ _ (goodRes_mline_items p rh n_lines 0 s st)
      intro s st
      exact goodRes_pcall p _ s st
    · exact goodRes_process_polygon p info true idx s st
    · apply goodRes_rread
      intro n_polys s
      apply goodRes_wbind _ _ (goodRes_pcall p _ s st)
      intro s st
      apply goodRes_wbind _ _ (goodRes_mpoly_items p rh n_polys 0 s st)
      intro s st
      exact goodRes_pcall p _ s st
    · apply goodRes_rread
      intro n_geoms s
      apply goodRes_wbind _ _ (goodRes_pcall p _ s st)
      intro s st
      apply goodRes_wbind _ _ (goodRes_gc_items p rh _
        (fun cinfo i s st => ih cinfo i s st) n_geoms 0 s st)
      intro s st
      exact goodRes_pcall p _ s st
    · exact Or.inl allOk_nil

/-- C9: for every input, every processor and both entry points (and the
inner walker, with any child-header reader), the walk's recorded callback
sequence satisfies `GoodRes`: every processor call before the last one
succeeded, and if the last call failed its error is exactly the error the
walk returns — a failing begin/end/coordinate callback aborts the walk
immediately, its error is propagated unchanged, and no further processor
call is made. -/
theorem processor_error_halts_walk {σ : Type} (p : GeomProcessor σ)
    (rh : HeaderReader) (fuel : Nat) (info : WkbInfo) (idx : Nat)
    (s : List Nat) (st : σ) :
    GoodRes (process_wkb_geom_n p rh fuel info idx s st)
    ∧ GoodRes (process_ewkb_geom p fuel s st)
    ∧ GoodRes (process_gpkg_geom p fuel s st) := by
  refine ⟨goodRes_process_wkb_geom_n p rh fuel info idx s st, ?_, ?_⟩
  · unfold process_ewkb_geom
    cases read_ewkb_header s with
    | error e => exact Or.inl allOk_nil
    | ok q =>
      obtain ⟨i2, s2⟩ := q
      exact goodRes_process_wkb_geom_n p read_ewkb_header fuel i2 0 s2 st
  · unfold process_gpkg_geom
    cases read_gpkg_header s with
    | error e => exact Or.inl allOk_nil
    | ok q =>
      obtain ⟨i2, s2⟩ := q
      exact goodRes_process_wkb_geom_n p read_wkb_header fuel i2 0 s2 st

end GeozeroWkb

namespace GeozeroWkb

theorem and_mask_low_eq (m f1 f2 : Nat) (hm : m < 16) (h16 : f1 % 16 = f2 % 16) :
    f1 &&& m = f2 &&& m := by
  apply Nat.eq_of_testBit_eq
  intro i
  rw [Nat.testBit_and, Nat.testBit_and]
  rcases lt_or_ge i 4 with hi | hi
  · have e1 : (f1 % 16).testBit i = (f2 % 16).testBit i := by rw [h16]
    have e2 := Nat.testBit_mod_two_pow f1 4 i
    have e3 := Nat.testBit_mod_two_pow f2 4 i
    norm_num at e2 e3
    rw [e2, e3, decide_eq_true hi] at e1
    simp only [Bool.true_and] at e1
    rw [e1]
  · have h2 : (2 : Nat) ^ 4 ≤ 2 ^ i := Nat.pow_le_pow_right (by norm_num) hi
    have hmb : m.testBit i = false := Nat.testBit_lt_two_pow (by omega)
    simp [hmb]

/-- C10: two GPKG streams that agree everywhere except in bits 4 (the
"empty" flag) and 5 (the "extended" flag) of the flags byte — i.e. whose
flags bytes agree on bits 0-3 and on bits 6 and up — produce the same
decoded header and the identical processing outcome: the same processor
call sequence, the same final state and the same result. -/
theorem gpkg_flags_bits45_irrelevant {σ : Type} (a b c f1 f2 : Nat)
    (rest : List Nat) (p : GeomProcessor σ) (fuel : Nat) (st : σ)
    (h16 : f1 % 16 = f2 % 16) (_h64 : f1 / 64 = f2 / 64) :
    read_gpkg_header (a :: b :: c :: f1 :: rest)
      = read_gpkg_header (a :: b :: c :: f2 :: rest)
    ∧ process_gpkg_geom p fuel (a :: b :: c :: f1 :: rest) st
      = process_gpkg_geom p fuel (a :: b :: c :: f2 :: rest) st := by
  have h1 : f1 &&& 1 = f2 &&& 1 := and_mask_low_eq 1 f1 f2 (by norm_num) h16
  have hE : f1 &&& 0xE = f2 &&& 0xE := and_mask_low_eq 0xE f1 f2 (by norm_num) h16
  have hhdr : read_gpkg_header (a :: b :: c :: f1 :: rest)
      = read_gpkg_header (a :: b :: c :: f2 :: rest) := by
    simp only [read_gpkg_header, ioreadU8]
    rw [h1, hE]
  refine ⟨hhdr, ?_⟩
  simp only [process_gpkg_geom]
  rw [hhdr]

/-- Witness for `gpkg_flags_bits45_irrelevant`: the `pt2d` stream with flags
0x03 versus flags 0x33 (bits 4 and 5 toggled on). -/
theorem gpkg_flags_bits45_irrelevant_witness :
    (3 : Nat) % 16 = (0x33 : Nat) % 16
    ∧ (3 : Nat) / 64 = (0x33 : Nat) / 64
    ∧ (read_gpkg_header (71 :: 80 :: 0 :: 3 :: gpkgPt2d.drop 4)
        = read_gpkg_header (71 :: 80 :: 0 :: 0x33 :: gpkgPt2d.drop 4)
      ∧ process_gpkg_geom recP2d 1 (71 :: 80 :: 0 :: 3 :: gpkgPt2d.drop 4) []
        = process_gpkg_geom recP2d 1 (71 :: 80 :: 0 :: 0x33 :: gpkgPt2d.drop 4) []) :=
  ⟨by decide, by decide,
   gpkg_flags_bits45_irrelevant 71 80 0 3 0x33 (gpkgPt2d.drop 4) recP2d 1 []
     (by decide) (by decide)⟩

end GeozeroWkb
